import Mathlib

/-!
Shallow embedding of `pwnlib/rop/gadgetfinder.py` (the binjitsu ROP gadget
finder, classifier and solver) and proofs about its behaviour.

External capabilities (capstone disassembly, the amoco symbolic executor,
the z3 SMT solver, the filesystem cache file) are modelled as explicit
function or data parameters; everything the Python module itself computes
is translated to executable Lean definitions.
-/

set_option autoImplicit false

deriving instance DecidableEq for Except

namespace GadgetFinderSpec

/-! ## String and Python helpers -/

/-- Python whitespace characters, as used by `str.strip()` and `\S`. -/
def isPySpace (c : Char) : Bool :=
  c = ' ' || c = '\t' || c = '\n' || c = '\r' || c = Char.ofNat 11 || c = Char.ofNat 12

/-- Model of Python `str.strip()`: drop whitespace from both ends. -/
def pyStrip (s : String) : String :=
  String.mk (((s.data.dropWhile isPySpace).reverse.dropWhile isPySpace).reverse)

/-- Does `hay` start with `needle`? -/
def listStartsWith : List Char → List Char → Bool
  | [], _ => true
  | _ :: _, [] => false
  | a :: as, b :: bs => (a = b) && listStartsWith as bs

/-- Does `hay` contain `needle` as a contiguous sublist? Models Python `needle in hay`. -/
def listHas (needle : List Char) : List Char → Bool
  | [] => listStartsWith needle []
  | c :: rest => listStartsWith needle (c :: rest) || listHas needle rest

/-- Model of the Python substring test `needle in s`. -/
def strContainsB (needle s : String) : Bool :=
  listHas needle.data s.data

/-- Python slice index normalization: negative indices count from the end, then clamp. -/
def pyBound (n : Nat) (i : Int) : Nat :=
  let j : Int := if i < 0 then i + n else i
  if j < 0 then 0 else if j > (n : Int) then n else j.toNat

/-- Model of the Python slice `l[a:b]` with possibly negative bounds. -/
def pySlice {α : Type} (l : List α) (a b : Int) : List α :=
  (l.take (pyBound l.length b)).drop (pyBound l.length a)

/-! ## Regular-expression matchers used by the module

Each Python regex used on instruction text is compiled by hand into a
decidable matcher with Python `re.match` semantics (anchored at the start,
`.` matches anything except a newline, `$` matches at the end or just
before a final newline, a trailing unmatched suffix is allowed when the
pattern does not end in `$`). -/

/-- Consume the literal characters `lit` from the front of `s`. -/
def dropLitChars : List Char → List Char → Option (List Char)
  | [], s => some s
  | _ :: _, [] => none
  | a :: as, b :: bs => if a = b then dropLitChars as bs else none

/-- Consume exactly `n` characters, each matching `.` (any char except newline). -/
def dropDotN : Nat → List Char → Option (List Char)
  | 0, s => some s
  | _ + 1, [] => none
  | n + 1, c :: rest => if c = '\n' then none else dropDotN n rest

/-- Python `$` (non-MULTILINE): end of string, or just before one final newline. -/
def reEndOk : List Char → Bool
  | [] => true
  | c :: rest => c = '\n' && rest = []

/-- Match `.*pat` against `s`: some non-newline prefix followed by `pat`. -/
def dotStarThen (pat : List Char) : List Char → Bool
  | [] => listStartsWith pat []
  | c :: rest =>
    listStartsWith pat (c :: rest) ||
      (if c = '\n' then false else dotStarThen pat rest)

/-- Matcher for `^pop (.{3})`. -/
def matchPop (s : List Char) : Bool :=
  match dropLitChars "pop ".data s with
  | some r => (dropDotN 3 r).isSome
  | none => false

/-- Matcher for `\S+$`: one or more non-whitespace characters, then end of string. -/
def matchNonSpaceStarEnd : List Char → Bool
  | [] => true
  | c :: rest => if isPySpace c then reEndOk (c :: rest) else matchNonSpaceStarEnd rest

/-- Matcher for `\S` then `\S*$`. -/
def matchNonSpacePlusEnd : List Char → Bool
  | [] => false
  | c :: rest => !isPySpace c && matchNonSpaceStarEnd rest

/-- Matcher for `^add .sp, (\S+)$`. -/
def matchAddSp (s : List Char) : Bool :=
  match dropLitChars "add ".data s with
  | some r =>
    match r with
    | [] => false
    | c :: r2 =>
      if c = '\n' then false
      else
        match dropLitChars "sp, ".data r2 with
        | some r3 => matchNonSpacePlusEnd r3
        | none => false
  | none => false

/-- Matcher for an exact keyword followed by `$`, e.g. `^ret$`. -/
def matchKwEnd (kw : String) (s : List Char) : Bool :=
  match dropLitChars kw.data s with
  | some r => reEndOk r
  | none => false

/-- Matcher for `^mov (.{3}), (.{3})` and `^xchg (.{3}), (.{3})` (parameterized keyword). -/
def matchMovLike (kw : String) (s : List Char) : Bool :=
  match dropLitChars kw.data s with
  | none => false
  | some r1 =>
    match dropDotN 3 r1 with
    | none => false
    | some r2 =>
      match dropLitChars ", ".data r2 with
      | none => false
      | some r3 => (dropDotN 3 r3).isSome

/-- Matcher for `int +0x80` (anchored by `re.match`, suffix allowed). -/
def matchInt80 (s : List Char) : Bool :=
  match dropLitChars "int".data s with
  | none => false
  | some r =>
    match r with
    | ' ' :: rest => (dropLitChars "0x80".data (rest.dropWhile (fun c => c = ' '))).isSome
    | _ => false

/-- The big-binary allow-list: an instruction is valid iff it matches one of the
nine regular expressions of `__filter_for_big_binary_or_elf32`. -/
def validInsn (s : String) : Bool :=
  let cs := s.data
  matchPop cs || matchAddSp cs || matchKwEnd "ret" cs || matchKwEnd "leave" cs ||
    matchMovLike "xchg " cs || matchMovLike "mov " cs || matchInt80 cs ||
    matchKwEnd "syscall" cs || matchKwEnd "sysenter" cs

/-- Matcher for `^pop \x7b.*pc\x7d` (the ARM pop-into-pc test of `__passClean`). -/
def matchPopPc (s : List Char) : Bool :=
  match dropLitChars "pop \x7b".data s with
  | none => false
  | some r => dotStarThen "pc\x7d".data r

/-! ## Data model -/

/-- Symbolic expression as delivered by the amoco mapper for one output register:
a constant, an input register, a memory load (with the input registers its address
depends on, the constant displacement, and the bit width), or a composite
arithmetic expression (with its input registers and constant displacement). -/
inductive SymExpr : Type
  | cst (value : Int)
  | reg (name : String)
  | mem (locs : List String) (disp : Int) (size : Nat)
  | op (locs : List String) (disp : Int)
  deriving DecidableEq

/-- Is the expression a memory load (`_is_mem`)? -/
def SymExpr.isMemLoad : SymExpr → Bool
  | .mem _ _ _ => true
  | _ => false

/-- Model of amoco `extract_offset(e)[1]`: the constant displacement of `e`. -/
def extractOffset : SymExpr → Int
  | .cst v => v
  | .reg _ => 0
  | .mem _ _ _ => 0
  | .op _ d => d

/-- Model of amoco `locations_of(e)`: names of the input registers `e` mentions. -/
def locationsOf : SymExpr → List String
  | .cst _ => []
  | .reg n => [n]
  | .mem locs _ _ => locs
  | .op locs _ => locs

/-- The destination (left side) of one mapper entry: its printed name and the
`_is_ptr` / `_is_mem` flags the classifier inspects. -/
structure RegOut : Type where
  name : String
  is_ptr : Bool
  is_mem : Bool
  deriving DecidableEq

/-- What a classified gadget does to one output register (the values stored into
the Python `regs` dict: a `Mem`, a register name, a constant, or a register list). -/
inductive RegEffect : Type
  | mem (base : String) (offset : Int) (size : Nat)
  | alias (name : String)
  | const (value : Int)
  | multi (locs : List String)
  deriving DecidableEq

/-- The `Gadget` record of `pwnlib/rop/gadgets.py`: address, mnemonic list,
register-effect map, stack-pointer move, and raw bytes. -/
structure Gadget : Type where
  address : Int
  insns : List String
  regs : List (String × RegEffect)
  move : Int
  bytes : List Nat
  deriving DecidableEq

/-- One decoded instruction as produced by capstone: mnemonic, operand text,
and the instruction group ids. -/
structure DecodedInsn : Type where
  mnemonic : String
  op_str : String
  groups : List Nat
  deriving DecidableEq

/-- The instruction text `(decode.mnemonic + " " + decode.op_str).strip()`. -/
def insnText (d : DecodedInsn) : String :=
  pyStrip (d.mnemonic ++ " " ++ d.op_str)

/-- One executable segment: virtual address and raw data
(`section.header.p_vaddr`, `section.data()`). -/
structure Segment : Type where
  p_vaddr : Int
  data : List Nat
  deriving DecidableEq

/-- The slice of an ELF image the module consumes: type tag, current mapped
base, static load address, and executable segments. -/
structure Elf : Type where
  elftype : String
  address : Int
  load_addr : Int
  segments : List Segment
  deriving DecidableEq

/-- One terminator pattern table entry `[regex, size, align]`; the byte-regex
search itself (Python `re.finditer`) is the capability `refs`, returning the
match offsets inside the segment data. -/
structure GadPattern : Type where
  size : Nat
  align : Nat
  refs : List Nat → List Nat

/-- Contents of a cache file: either a well-formed `{address: bytes}` mapping,
or bytes whose `eval` raises (any deserialization failure). -/
inductive CacheContent : Type
  | ok (entries : List (Int × List Nat))
  | corrupt
  deriving DecidableEq

/-! ## Constants -/

/-- `MAX_SIZE = 100` ("File size more than 100kb, should be filter"). -/
def MAX_SIZE : Nat := 100

/-- capstone architecture id `CS_ARCH_ARM`. -/
def CS_ARCH_ARM : Nat := 0

/-- capstone architecture id `CS_ARCH_X86`. -/
def CS_ARCH_X86 : Nat := 3

/-- capstone instruction group ids used in `branch_groups`. -/
def CS_GRP_JUMP : Nat := 1

/-- capstone group id for calls. -/
def CS_GRP_CALL : Nat := 2

/-- capstone group id for returns. -/
def CS_GRP_RET : Nat := 3

/-- capstone group id for software interrupts. -/
def CS_GRP_INT : Nat := 4

/-- capstone group id for interrupt returns. -/
def CS_GRP_IRET : Nat := 5

/-- The `branch_groups` list of `__passClean`. -/
def branchGroups : List Nat :=
  [CS_GRP_JUMP, CS_GRP_CALL, CS_GRP_RET, CS_GRP_INT, CS_GRP_IRET]

/-- `GadgetMapper.__init__`: pointer width (`self.align`) per architecture tag;
`none` models the raised `Exception` for an unsupported architecture. -/
def archAlign : String → Option Int
  | "i386" => some 4
  | "amd64" => some 8
  | "arm" => some 4
  | _ => none

/-- capstone architecture chosen in `GadgetFinder.__init__` per ELF arch tag. -/
def csArchOf : String → Option Nat
  | "i386" => some CS_ARCH_X86
  | "amd64" => some CS_ARCH_X86
  | "arm" => some CS_ARCH_ARM
  | _ => none

/-- `GadgetFinder.__init__`: `self.need_filter` is set iff the capstone arch is
x86 and the image file length is at least `MAX_SIZE * 1000` bytes. -/
def need_filter (arch : Nat) (fileLen : Nat) : Bool :=
  (arch == CS_ARCH_X86) && decide (MAX_SIZE * 1000 ≤ fileLen)

/-! ## GadgetClassifier.classify -/

/-- The generic register-effect derivation at the bottom of the classify loop
(memory load, register alias, constant, or multi-register combination). -/
def genericEffect : SymExpr → RegEffect
  | .mem locs disp size => .mem (String.intercalate "_" locs) disp size
  | .reg n => .alias n
  | .cst v => .const v
  | .op locs _ => .multi locs

/-- Python dict assignment `regs[k] = v` on an association list. -/
def updateAssoc (regs : List (String × RegEffect)) (k : String) (v : RegEffect) :
    List (String × RegEffect) :=
  if regs.any (fun p => p.1 == k) then
    regs.map (fun p => if p.1 == k then (k, v) else p)
  else
    regs ++ [(k, v)]

/-- Processing of one non-write mapper entry inside `classify`'s loop, mirroring
the Python control flow: flags registers are skipped; `sp` registers set `move`;
`ip` registers that are memory loads set `ip_move` and are skipped; `pc`
registers set `ip_move` from a load (falling through to the generic effect) or
from an arithmetic expression (skipping); everything else derives a `RegEffect`.
Returns the updated `(regs, move, ip_move)`. -/
def classifyEntry (name : String) (inputs : SymExpr)
    (regs : List (String × RegEffect)) (move ipm : Int) :
    List (String × RegEffect) × Int × Int :=
  if strContainsB "flags" name || strContainsB "apsr" name then
    (regs, move, ipm)
  else if strContainsB "sp" name then
    (regs, extractOffset inputs, ipm)
  else if strContainsB "ip" name && inputs.isMemLoad then
    match inputs with
    | .mem _ disp _ => (regs, move, disp)
    | _ => (regs, move, ipm)
  else if strContainsB "pc" name && inputs.isMemLoad then
    match inputs with
    | .mem _ disp _ => (updateAssoc regs name (genericEffect inputs), move, disp)
    | _ => (regs, move, ipm)
  else
    match inputs with
    | .op _ d =>
      if strContainsB "pc" name then (regs, move, d)
      else (updateAssoc regs name (genericEffect inputs), move, ipm)
    | _ => (updateAssoc regs name (genericEffect inputs), move, ipm)

/-- The `for reg_out, _ in gadget_mapper` loop of `classify`: rejects the whole
gadget (`none`) on a pointer or memory destination, otherwise threads
`(regs, move, ip_move)` through `classifyEntry`. -/
def classifyLoop : List (RegOut × SymExpr) → List (String × RegEffect) → Int → Int →
    Option (List (String × RegEffect) × Int × Int)
  | [], regs, move, ipm => some (regs, move, ipm)
  | (dst, inputs) :: rest, regs, move, ipm =>
    if dst.is_ptr || dst.is_mem then none
    else
      let next := classifyEntry dst.name inputs regs move ipm
      classifyLoop rest next.1 next.2.1 next.2.2

/-- `GadgetClassifier.classify`: run the symbolic-execution capability on the
gadget bytes, process every mapper entry, and keep the gadget iff
`ip_move == move - self.align`. -/
def classify (align : Int) (symExec : List Nat → Option (List (RegOut × SymExpr)))
    (gadget : Gadget) : Option Gadget :=
  match symExec gadget.bytes with
  | none => none
  | some m =>
    match classifyLoop m [] 0 0 with
    | none => none
    | some (regs, move, ipm) =>
      if ipm = move - align then
        some ⟨gadget.address, gadget.insns, regs, move, gadget.bytes⟩
      else none

/-! ## GadgetSolver.verify_path -/

/-- The `for reg, constraint in gadget_mapper` loop of `verify_path`:
`sp` registers set `move`; registers named in `conditions` are checked through
the SMT capability `prv` (whose model is delivered as the extracted
`(offset, byte)` stack entries); an unsatisfiable check aborts with `none`;
satisfiable checks on stack-based memory loads accumulate stack entries. -/
def verifyLoop (prv : Int → SymExpr → Option (List (Int × Int)))
    (conditions : List (String × Int)) :
    List (String × SymExpr) → Int → List (Int × Int) →
    Option (Int × List (Int × Int))
  | [], move, stack => some (move, stack)
  | (regName, constraint) :: rest, move, stack =>
    if strContainsB "sp" regName then
      verifyLoop prv conditions rest (extractOffset constraint) stack
    else
      match List.lookup regName conditions with
      | none => verifyLoop prv conditions rest move stack
      | some target =>
        match prv target constraint with
        | none => none
        | some entries =>
          if constraint.isMemLoad &&
              (locationsOf constraint).any (fun l => strContainsB "sp" l) then
            verifyLoop prv conditions rest move (stack ++ entries)
          else
            verifyLoop prv conditions rest move stack

/-- Stable insertion of one `(offset, byte)` pair (Python `sorted` is stable). -/
def insertByOffset (x : Int × Int) : List (Int × Int) → List (Int × Int)
  | [] => [x]
  | y :: ys => if y.1 ≤ x.1 then y :: insertByOffset x ys else x :: y :: ys

/-- `sorted(stack_converted, key=itemgetter(0))`. -/
def sortByOffset (l : List (Int × Int)) : List (Int × Int) :=
  l.foldl (fun acc x => insertByOffset x acc) []

/-- `OrderedDict` construction from pairs: a later value for an existing key
overwrites in place. -/
def odInsert : List (Int × Int) → Int × Int → List (Int × Int)
  | [], x => [x]
  | y :: ys, x => if y.1 = x.1 then (x.1, x.2) :: ys else y :: odInsert ys x

/-- Collect sorted pairs into the ordered mapping returned by `verify_path`. -/
def odFromPairs (l : List (Int × Int)) : List (Int × Int) :=
  l.foldl odInsert []

/-- `GadgetSolver.verify_path`: concatenate the chain bytes, obtain the chain
mapper from the symbolic-execution capability, run the conditions loop, and
return `none` when a check fails or when nothing stack-backed was collected. -/
def verify_path (symExecChain : List Nat → List (String × SymExpr))
    (prv : Int → SymExpr → Option (List (Int × Int)))
    (path : List Gadget) (conditions : List (String × Int)) :
    Option (Int × List (Int × Int)) :=
  let concat := (path.map Gadget.bytes).flatten
  match verifyLoop prv conditions (symExecChain concat) 0 [] with
  | none => none
  | some (move, stack) =>
    if stack.length = 0 then none
    else some (move, odFromPairs (sortByOffset stack))

/-! ## GadgetFinder -/

/-- `GadgetFinder.__filter_for_big_binary_or_elf32`: keep the gadget iff every
instruction matches one of the allow-list regular expressions. -/
def filter_for_big_binary (gadget : Gadget) : List Gadget :=
  if gadget.insns.all validInsn then [gadget] else []

/-- The last decoded instruction `decodes[-1]` (callers guarantee nonemptiness;
the default is never reached on the paths the module exercises). -/
def lastD (decodes : List DecodedInsn) : DecodedInsn :=
  decodes.getLastD ⟨"", "", []⟩

/-- `GadgetFinder.__checkMultiBr`: one for a trailing `pop` mnemonic, plus, for
every instruction, the number of branch groups it belongs to. -/
def checkMultiBr (decodes : List DecodedInsn) : Nat :=
  (if (lastD decodes).mnemonic = "pop" then 1 else 0) +
    (decodes.map (fun inst => (branchGroups.filter (fun g => inst.groups.contains g)).length)).sum

/-- `GadgetFinder.__passClean` (with the default `multibr=False`): the last
instruction must be a pop-into-pc or belong to a branch group, and the branch
count must not exceed one. -/
def passClean (decodes : List DecodedInsn) : Bool :=
  let li := lastD decodes
  let last_instr := li.mnemonic ++ " " ++ li.op_str
  if !matchPopPc last_instr.data && (branchGroups.all (fun g => !li.groups.contains g)) then
    false
  else if checkMultiBr decodes > 1 then
    false
  else
    true

/-- One candidate window of the scan loop (`for i in range(self.depth)` body):
slice the window, disassemble it, and keep the gadget if it decodes, is
aligned, passes `__passClean`, and (when `need_filter`) the big-binary
allow-list. -/
def tryWindow (disasm : Int → List Nat → List DecodedInsn) (gad : GadPattern)
    (sec : Segment) (elf : Elf) (nf : Bool) (ref : Nat) (i : Nat) : List Gadget :=
  let back_bytes : Int := (i * gad.align : Nat)
  let section_start : Int := (ref : Int) - back_bytes
  let start_address0 : Int := sec.p_vaddr + section_start
  let start_address : Int :=
    if elf.elftype = "DYN" then elf.address + start_address0 else start_address0
  let window := pySlice sec.data section_start ((ref : Int) + (gad.size : Nat))
  let decodes := disasm start_address window
  let insns := decodes.map insnText
  if insns.length > 0 then
    if start_address % (gad.align : Int) = 0 then
      let bytes := pySlice sec.data ((ref : Int) - (i * gad.align : Nat)) ((ref : Int) + (gad.size : Nat))
      let onegad : Gadget := ⟨start_address, insns, [], 0, bytes⟩
      if passClean decodes = false then []
      else if nf then filter_for_big_binary onegad
      else [onegad]
    else []
  else []

/-- The `for i in range(self.depth)` loop for one regex match offset. -/
def scanRef (disasm : Int → List Nat → List DecodedInsn) (gad : GadPattern)
    (sec : Segment) (elf : Elf) (depth : Nat) (nf : Bool) (ref : Nat) : List Gadget :=
  (List.range depth).flatMap (tryWindow disasm gad sec elf nf ref)

/-- The `for ref in allRef` loop for one pattern table entry. -/
def scanPattern (disasm : Int → List Nat → List DecodedInsn) (sec : Segment)
    (elf : Elf) (depth : Nat) (nf : Bool) (gad : GadPattern) : List Gadget :=
  (gad.refs sec.data).flatMap (scanRef disasm gad sec elf depth nf)

/-- The scan half of `__find_all_gadgets` (`for gad in gadget_re`). -/
def scanGadgets (disasm : Int → List Nat → List DecodedInsn)
    (gadget_re : List GadPattern) (sec : Segment) (elf : Elf) (depth : Nat)
    (nf : Bool) : List Gadget :=
  gadget_re.flatMap (scanPattern disasm sec elf depth nf)

/-- `GadgetFinder.__cache_load`: a missing file is a miss (`none`); a corrupt
file raises (`eval` of the contents fails, modelled as `.error`); a good file
yields the mapping with every address rebased by `- load_addr + address`. -/
def cache_load (cacheFile : Option CacheContent) (elf : Elf) :
    Except Unit (Option (List (Int × List Nat))) :=
  match cacheFile with
  | none => .ok none
  | some .corrupt => .error ()
  | some (.ok entries) =>
    .ok (some (entries.map (fun kv => (kv.1 - elf.load_addr + elf.address, kv.2))))

/-- `GadgetFinder.__cache_save`'s address re-basing: each address is stored
with `+ load_addr - address` applied. -/
def cache_save_data (elf : Elf) (data : List (Int × List Nat)) :
    List (Int × List Nat) :=
  data.map (fun kv => (kv.1 + elf.load_addr - elf.address, kv.2))

/-- The cache half of `__find_all_gadgets`: every cached `(address, bytes)`
entry that disassembles to at least one instruction is emitted directly as a
gadget with empty `regs` and zero `move`. -/
def cachedGadgets (disasm : Int → List Nat → List DecodedInsn)
    (cache : List (Int × List Nat)) : List Gadget :=
  cache.filterMap (fun kv =>
    let insns := (disasm kv.1 kv.2).map insnText
    if insns.length > 0 then some ⟨kv.1, insns, [], 0, kv.2⟩ else none)

/-- `GadgetFinder.__find_all_gadgets`: recover gadgets from the cache when the
cache file deserializes to a nonempty mapping (Python `if cache:`), otherwise
scan the segment; a corrupt cache file propagates its error. -/
def find_all_gadgets (disasm : Int → List Nat → List DecodedInsn)
    (gadget_re : List GadPattern) (elf : Elf) (cacheFile : Option CacheContent)
    (depth : Nat) (nf : Bool) (sec : Segment) : Except Unit (List Gadget) :=
  match cache_load cacheFile elf with
  | .error e => .error e
  | .ok (some cache) =>
    if cache.isEmpty then .ok (scanGadgets disasm gadget_re sec elf depth nf)
    else .ok (cachedGadgets disasm cache)
  | .ok none => .ok (scanGadgets disasm gadget_re sec elf depth nf)

/-- The joined mnemonic string `"; ".join(gadget.insns)` used by the deduper. -/
def joinInsns (insns : List String) : String :=
  String.intercalate "; " insns

/-- The loop of `GadgetFinder.__deduplicate` with its seen-strings accumulator. -/
def dedupGo : List Gadget → List String → List Gadget
  | [], _ => []
  | g :: rest, seen =>
    let s := joinInsns g.insns
    if s ∈ seen then dedupGo rest seen
    else g :: dedupGo rest (seen ++ [s])

/-- `GadgetFinder.__deduplicate`: first-seen-wins dedup by joined mnemonics. -/
def deduplicate (gadgets : List Gadget) : List Gadget :=
  dedupGo gadgets []

/-- The `for seg in elf.executable_segments` loop of `load_gadgets`, with cache
errors propagated. -/
def seg_gadgets (disasm : Int → List Nat → List DecodedInsn)
    (gadget_re : List GadPattern) (elf : Elf) (cacheFile : Option CacheContent)
    (depth : Nat) (nf : Bool) : List Segment → Except Unit (List Gadget)
  | [] => .ok []
  | sec :: rest =>
    match find_all_gadgets disasm gadget_re elf cacheFile depth nf sec with
    | .error e => .error e
    | .ok gs =>
      match seg_gadgets disasm gadget_re elf cacheFile depth nf rest with
      | .error e => .error e
      | .ok more => .ok (gs ++ more)

/-- The `for elf in self.elfs` loop of `load_gadgets`: per-ELF scan, per-ELF
dedup, then concatenation (the cache save does not affect the return value). -/
def load_gadgets_go (disasm : Int → List Nat → List DecodedInsn)
    (gadget_re : List GadPattern) (cacheOf : Elf → Option CacheContent)
    (depth : Nat) (nf : Bool) : List Elf → Except Unit (List Gadget)
  | [] => .ok []
  | elf :: rest =>
    match seg_gadgets disasm gadget_re elf (cacheOf elf) depth nf elf.segments with
    | .error e => .error e
    | .ok gs =>
      match load_gadgets_go disasm gadget_re cacheOf depth nf rest with
      | .error e => .error e
      | .ok out => .ok (deduplicate gs ++ out)

/-- `GadgetFinder.load_gadgets` over the capability parameters: capstone
disassembly, the pattern table, the per-image cache file, the scan depth, and
the `need_filter` flag computed at construction. -/
def load_gadgets (disasm : Int → List Nat → List DecodedInsn)
    (gadget_re : List GadPattern) (cacheOf : Elf → Option CacheContent)
    (depth : Nat) (nf : Bool) (elfs : List Elf) : Except Unit (List Gadget) :=
  load_gadgets_go disasm gadget_re cacheOf depth nf elfs

/-! ## Concrete inputs used by witnesses and counterexamples -/

/-- Mapper delivered by amoco for `pop rdi; ret` (bytes `5f c3`, amd64):
`rdi <- M64(rsp)`, `rip <- M64(rsp+8)`, `rsp <- rsp+0x10`. -/
def popRdiMapper : List (RegOut × SymExpr) :=
  [(⟨"rdi", false, false⟩, .mem ["rsp"] 0 64),
   (⟨"rip", false, false⟩, .mem ["rsp"] 8 64),
   (⟨"rsp", false, false⟩, .op ["rsp"] 16)]

/-- The unclassified `pop rdi; ret` gadget. -/
def popRdiGadget : Gadget :=
  ⟨0x400000, ["pop rdi", "ret"], [], 0, [0x5f, 0xc3]⟩

/-- Symbolic-execution capability returning the `pop rdi; ret` mapper. -/
def popRdiSymExec : List Nat → Option (List (RegOut × SymExpr)) :=
  fun _ => some popRdiMapper

/-- Mapper for `mov qword ptr [rdi], rax; ret`: the first destination is the
memory location `M64(rdi)` (a store), then `rip <- M64(rsp)`, `rsp <- rsp+8`. -/
def movStoreMapper : List (RegOut × SymExpr) :=
  [(⟨"M64(rdi)", false, true⟩, .reg "rax"),
   (⟨"rip", false, false⟩, .mem ["rsp"] 0 64),
   (⟨"rsp", false, false⟩, .op ["rsp"] 8)]

/-- The unclassified `mov [rdi], rax; ret` candidate. -/
def movStoreGadget : Gadget :=
  ⟨0x400000, ["mov qword ptr [rdi], rax", "ret"], [], 0, [0x48, 0x89, 0x07, 0xc3]⟩

/-- Symbolic-execution capability returning the `mov [rdi], rax; ret` mapper. -/
def movStoreSymExec : List Nat → Option (List (RegOut × SymExpr)) :=
  fun _ => some movStoreMapper

/-- Mapper for `sub esp, 0xc; ret` (i386): `esp <- esp-8`, `eip <- M32(esp-12)`. -/
def subEspMapper : List (RegOut × SymExpr) :=
  [(⟨"esp", false, false⟩, .op ["esp"] (-8)),
   (⟨"eip", false, false⟩, .mem ["esp"] (-12) 32)]

/-- The unclassified `sub esp, 0xc; ret` gadget. -/
def subEspGadget : Gadget :=
  ⟨0x8048000, ["sub esp, 0xc", "ret"], [], 0, [0x83, 0xec, 0x0c, 0xc3]⟩

/-- Symbolic-execution capability returning the `sub esp, 0xc; ret` mapper. -/
def subEspSymExec : List Nat → Option (List (RegOut × SymExpr)) :=
  fun _ => some subEspMapper

/-- Chain mapper for the solver examples: `esp <- esp+4`, `eax <- M32(esp)`. -/
def chainMapper : List (String × SymExpr) :=
  [("esp", .op ["esp"] 4), ("eax", .mem ["esp"] 0 32)]

/-- Chain symbolic-execution capability returning `chainMapper`. -/
def chainSymExec : List Nat → List (String × SymExpr) :=
  fun _ => chainMapper

/-- SMT capability for the C4 counterexample: the equality against target 999
is unsatisfiable, every other equality has a model placing byte 5 at offset 0. -/
def cexProve : Int → SymExpr → Option (List (Int × Int)) :=
  fun t _ => if t = 999 then none else some [(0, 5)]

/-- SMT capability that reports every equality unsatisfiable. -/
def unsatProve : Int → SymExpr → Option (List (Int × Int)) :=
  fun _ _ => none

/-- Conditions for the C4 counterexample: an unsatisfiable target for `esp`
(skipped by the loop) and a satisfiable one for `eax`. -/
def cexConditions : List (String × Int) :=
  [("esp", 999), ("eax", 5)]

/-- A one-gadget chain for the solver examples. -/
def cexPath : List Gadget :=
  [⟨0x100, ["pop eax", "ret"], [], 0, [0x58, 0xc3]⟩]

/-- A decoded `ret` instruction (capstone group `CS_GRP_RET`). -/
def retInsn : DecodedInsn := ⟨"ret", "", [CS_GRP_RET]⟩

/-- A decoded `nop` instruction (no groups: not a branch). -/
def nopInsn : DecodedInsn := ⟨"nop", "", []⟩

/-- Disassembly capability: byte `c3` decodes to `ret`, byte `90` to `nop`. -/
def cexDisasm : Int → List Nat → List DecodedInsn :=
  fun _ b => if b = [0xc3] then [retInsn] else if b = [0x90] then [nopInsn] else []

/-- A one-byte executable segment holding `c3`. -/
def cexSeg : Segment := ⟨0, [0xc3]⟩

/-- A small non-DYN image with one executable segment. -/
def cexElf : Elf := ⟨"EXEC", 0, 0, [cexSeg]⟩

/-- Cache capability: every image has a cache file that fails to deserialize. -/
def corruptCacheOf : Elf → Option CacheContent :=
  fun _ => some .corrupt

/-- Cache capability: every image has a cached `ret` gadget at address 100. -/
def retCacheOf : Elf → Option CacheContent :=
  fun _ => some (.ok [(100, [0xc3])])

/-- The gadget recovered from the `retCacheOf` cache file. -/
def retCacheGadget : Gadget := ⟨100, ["ret"], [], 0, [0xc3]⟩

/-- The `ret` terminator pattern entry (`["\xc3", 1, 1]`), with the byte-regex
search returning its single match at offset 0 of `cexSeg`. -/
def retPattern : GadPattern := ⟨1, 1, fun _ => [0]⟩

/-- A cached entry whose bytes disassemble to `nop` (no branch, not in the
allow-list). -/
def nopCache : List (Int × List Nat) := [(5, [0x90])]

/-- Images for the cache re-basing witness: same static load address 0x400,
runtime bases 0x1000 and 0x7000. -/
def elfBaseA : Elf := ⟨"DYN", 0x1000, 0x400, []⟩

/-- The second placement of the same image, at runtime base 0x7000. -/
def elfBaseB : Elf := ⟨"DYN", 0x7000, 0x400, []⟩

/-- The classified `pop rdi; ret` gadget (the docstring example of `classify`). -/
def popRdiClassified : Gadget :=
  ⟨0x400000, ["pop rdi", "ret"], [("rdi", .mem "rsp" 0 64)], 16, [0x5f, 0xc3]⟩

/-- The classified `sub esp, 0xc; ret` gadget: negative `sp_delta`. -/
def subEspClassified : Gadget :=
  ⟨0x8048000, ["sub esp, 0xc", "ret"], [], -8, [0x83, 0xec, 0x0c, 0xc3]⟩

/-- The gadget recovered from the `nopCache` entry. -/
def nopCacheGadget : Gadget := ⟨5, ["nop"], [], 0, [0x90]⟩

/-- The gadget the scan of `cexSeg` emits for the `ret` pattern. -/
def retScanGadget : Gadget := ⟨0, ["ret"], [], 0, [0xc3]⟩

/-! ## Helper lemmas -/

theorem updateAssoc_mem {regs : List (String × RegEffect)} {k : String} {v : RegEffect}
    {p : String × RegEffect} (h : p ∈ updateAssoc regs k v) : p = (k, v) ∨ p ∈ regs := by
  unfold updateAssoc at h
  split at h
  · rcases List.mem_map.mp h with ⟨q, hq, hfq⟩
    by_cases hk : (q.1 == k) = true
    · left
      rw [← hfq]
      simp [hk]
    · right
      rw [← hfq]
      simp only [hk, if_false]
      exact hq
  · rcases List.mem_append.mp h with h1 | h1
    · right; exact h1
    · left; simpa using h1

theorem classifyEntry_regs {name : String} {inputs : SymExpr}
    {regs : List (String × RegEffect)} {move ipm : Int}
    {p : String × RegEffect} (h : p ∈ (classifyEntry name inputs regs move ipm).1) :
    p ∈ regs ∨
      (p.1 = name ∧ strContainsB "flags" name = false ∧ strContainsB "apsr" name = false) := by
  unfold classifyEntry at h
  by_cases h1 : (strContainsB "flags" name || strContainsB "apsr" name) = true
  · rw [if_pos h1] at h
    exact Or.inl h
  · have hflags : strContainsB "flags" name = false ∧ strContainsB "apsr" name = false := by
      revert h1
      cases strContainsB "flags" name <;> cases strContainsB "apsr" name <;> simp
    rw [if_neg h1] at h
    by_cases h2 : strContainsB "sp" name = true
    · rw [if_pos h2] at h
      exact Or.inl h
    · rw [if_neg h2] at h
      by_cases h3 : (strContainsB "ip" name && inputs.isMemLoad) = true
      · rw [if_pos h3] at h
        cases inputs <;> exact Or.inl h
      · rw [if_neg h3] at h
        by_cases h4 : (strContainsB "pc" name && inputs.isMemLoad) = true
        · rw [if_pos h4] at h
          cases inputs with
          | mem locs disp size =>
            rcases updateAssoc_mem h with rfl | hmem
            · exact Or.inr ⟨rfl, hflags⟩
            · exact Or.inl hmem
          | cst v => exact Or.inl h
          | reg n => exact Or.inl h
          | op locs d => exact Or.inl h
        · rw [if_neg h4] at h
          cases inputs with
          | op locs d =>
            dsimp only at h
            by_cases h5 : strContainsB "pc" name = true
            · rw [if_pos h5] at h
              exact Or.inl h
            · rw [if_neg h5] at h
              rcases updateAssoc_mem h with rfl | hmem
              · exact Or.inr ⟨rfl, hflags⟩
              · exact Or.inl hmem
          | cst v =>
            rcases updateAssoc_mem h with rfl | hmem
            · exact Or.inr ⟨rfl, hflags⟩
            · exact Or.inl hmem
          | reg n =>
            rcases updateAssoc_mem h with rfl | hmem
            · exact Or.inr ⟨rfl, hflags⟩
            · exact Or.inl hmem
          | mem locs disp size =>
            rcases updateAssoc_mem h with rfl | hmem
            · exact Or.inr ⟨rfl, hflags⟩
            · exact Or.inl hmem

theorem classifyLoop_regs :
    ∀ (m : List (RegOut × SymExpr)) (regs : List (String × RegEffect)) (mv ipm : Int)
      (out : List (String × RegEffect) × Int × Int),
      classifyLoop m regs mv ipm = some out →
      ∀ p ∈ out.1,
        p ∈ regs ∨ (strContainsB "flags" p.1 = false ∧ strContainsB "apsr" p.1 = false) := by
  intro m
  induction m with
  | nil =>
    intro regs mv ipm out h p hp
    unfold classifyLoop at h
    injection h with h
    rw [← h] at hp
    exact Or.inl hp
  | cons hd tl ih =>
    intro regs mv ipm out h p hp
    obtain ⟨dst, inputs⟩ := hd
    unfold classifyLoop at h
    by_cases hw : (dst.is_ptr || dst.is_mem) = true
    · rw [if_pos hw] at h
      exact absurd h (by simp)
    · rw [if_neg hw] at h
      rcases ih _ _ _ _ h p hp with hmem | hflags
      · rcases classifyEntry_regs hmem with hmem2 | ⟨hname, hflags2⟩
        · exact Or.inl hmem2
        · exact Or.inr (by rw [hname]; exact hflags2)
      · exact Or.inr hflags

theorem classifyLoop_none_of_write :
    ∀ (m : List (RegOut × SymExpr)) (regs : List (String × RegEffect)) (mv ipm : Int),
      (∃ e ∈ m, e.1.is_ptr = true ∨ e.1.is_mem = true) →
      classifyLoop m regs mv ipm = none := by
  intro m
  induction m with
  | nil =>
    intro regs mv ipm h
    rcases h with ⟨e, he, _⟩
    simp at he
  | cons hd tl ih =>
    intro regs mv ipm h
    obtain ⟨dst, inputs⟩ := hd
    unfold classifyLoop
    rcases h with ⟨e, he, hw⟩
    rcases List.mem_cons.mp he with heq | he2
    · rw [heq] at hw
      simp only at hw
      have hw2 : (dst.is_ptr || dst.is_mem) = true := by
        rcases hw with h1 | h1 <;> simp [h1]
      rw [if_pos hw2]
    · by_cases hwr : (dst.is_ptr || dst.is_mem) = true
      · rw [if_pos hwr]
      · rw [if_neg hwr]
        exact ih _ _ _ ⟨e, he2, hw⟩

/-! ## Claim theorems -/

/-- C1: for a gadget whose symbolic execution succeeds and whose mapper pass
completes with derived values `(regs, sp_delta, ip_delta)`, `classify` returns
a classified gadget iff `ip_delta = sp_delta - align` (the architecture's
pointer width), and a gadget violating the relation is dropped (`none`). -/
theorem classify_final_rule (align : Int)
    (symExec : List Nat → Option (List (RegOut × SymExpr))) (g : Gadget)
    (m : List (RegOut × SymExpr)) (regs : List (String × RegEffect)) (mv ipm : Int)
    (hse : symExec g.bytes = some m)
    (hloop : classifyLoop m [] 0 0 = some (regs, mv, ipm)) :
    ((classify align symExec g).isSome ↔ ipm = mv - align) ∧
      (ipm = mv - align →
        classify align symExec g = some ⟨g.address, g.insns, regs, mv, g.bytes⟩) := by
  unfold classify
  rw [hse]
  dsimp only
  rw [hloop]
  dsimp only
  by_cases hc : ipm = mv - align
  · simp [hc]
  · simp [hc]

/-- Witness for `classify_final_rule`: the `pop rdi; ret` gadget on amd64,
whose derived deltas satisfy `8 = 16 - 8`, is classified as in the docstring. -/
theorem classify_final_rule_witness :
    classify 8 popRdiSymExec popRdiGadget =
      some ⟨popRdiGadget.address, popRdiGadget.insns,
        [("rdi", RegEffect.mem "rsp" 0 64)], 16, popRdiGadget.bytes⟩ :=
  (classify_final_rule 8 popRdiSymExec popRdiGadget popRdiMapper
    [("rdi", RegEffect.mem "rsp" 0 64)] 16 8 (by decide) (by decide)).2 (by decide)

/-- C3: whenever the mapper contains an entry whose destination is a pointer
or a memory location (a memory write), `classify` rejects the whole gadget. -/
theorem classify_rejects_memory_write (align : Int)
    (symExec : List Nat → Option (List (RegOut × SymExpr))) (g : Gadget)
    (m : List (RegOut × SymExpr))
    (hse : symExec g.bytes = some m)
    (hw : ∃ e ∈ m, e.1.is_ptr = true ∨ e.1.is_mem = true) :
    classify align symExec g = none := by
  unfold classify
  rw [hse]
  dsimp only
  rw [classifyLoop_none_of_write m [] 0 0 hw]

/-- Witness for `classify_rejects_memory_write`: the candidate disassembling to
`mov [rdi], rax; ret` assigns to the memory destination `M64(rdi)` and is
rejected. -/
theorem classify_rejects_memory_write_witness :
    classify 8 movStoreSymExec movStoreGadget = none :=
  classify_rejects_memory_write 8 movStoreSymExec movStoreGadget movStoreMapper
    (by decide)
    ⟨(⟨"M64(rdi)", false, true⟩, SymExpr.reg "rax"), by decide, Or.inr (by decide)⟩

/-- C6: the `regs` mapping of every gadget returned by `classify` has no entry
whose register name contains "flags" or "apsr". -/
theorem classify_regs_never_flags (align : Int)
    (symExec : List Nat → Option (List (RegOut × SymExpr))) (g g2 : Gadget)
    (h : classify align symExec g = some g2) :
    ∀ p ∈ g2.regs, strContainsB "flags" p.1 = false ∧ strContainsB "apsr" p.1 = false := by
  unfold classify at h
  cases hse : symExec g.bytes with
  | none =>
    rw [hse] at h
    exact absurd h (by simp)
  | some m =>
    rw [hse] at h
    dsimp only at h
    cases hloop : classifyLoop m [] 0 0 with
    | none =>
      rw [hloop] at h
      exact absurd h (by simp)
    | some out =>
      obtain ⟨regs, mv, ipm⟩ := out
      rw [hloop] at h
      dsimp only at h
      split at h
      · injection h with h
        intro p hp
        rw [← h] at hp
        rcases classifyLoop_regs m [] 0 0 (regs, mv, ipm) hloop p hp with hmem | hok
        · exact absurd hmem (by simp)
        · exact hok
      · exact absurd h (by simp)

/-- Witness for `classify_regs_never_flags`: the classified `pop rdi; ret`
gadget's single `regs` entry is for `rdi`, which is not a flags register. -/
theorem classify_regs_never_flags_witness :
    strContainsB "flags" "rdi" = false ∧ strContainsB "apsr" "rdi" = false := by
  have h := classify_regs_never_flags 8 popRdiSymExec popRdiGadget popRdiClassified
    (by decide) ("rdi", RegEffect.mem "rsp" 0 64) (by decide)
  exact h

theorem verifyLoop_unsat_none (prv : Int → SymExpr → Option (List (Int × Int)))
    (conditions : List (String × Int)) :
    ∀ (m : List (String × SymExpr)) (move : Int) (stack : List (Int × Int))
      (reg : String) (e : SymExpr) (target : Int),
      (reg, e) ∈ m → strContainsB "sp" reg = false →
      List.lookup reg conditions = some target → prv target e = none →
      verifyLoop prv conditions m move stack = none := by
  intro m
  induction m with
  | nil =>
    intro move stack reg e target hmem _ _ _
    simp at hmem
  | cons hd tl ih =>
    intro move stack reg e target hmem hsp hlook hprv
    obtain ⟨rn, c⟩ := hd
    unfold verifyLoop
    rcases List.mem_cons.mp hmem with heq | hmem2
    · have hr : rn = reg := by
        have := congrArg Prod.fst heq
        exact this.symm
      have hc : c = e := by
        have := congrArg Prod.snd heq
        exact this.symm
      rw [hr, hc, if_neg (by rw [hsp]; exact Bool.false_ne_true), hlook]
      dsimp only
      simp only [hprv]
    · by_cases h1 : strContainsB "sp" rn = true
      · rw [if_pos h1]
        exact ih _ _ _ _ _ hmem2 hsp hlook hprv
      · rw [if_neg h1]
        cases hl : List.lookup rn conditions with
        | none =>
          dsimp only
          exact ih _ _ _ _ _ hmem2 hsp hlook hprv
        | some t =>
          dsimp only
          cases hp : prv t c with
          | none => dsimp only
          | some entries =>
            dsimp only
            split
            · exact ih _ _ _ _ _ hmem2 hsp hlook hprv
            · exact ih _ _ _ _ _ hmem2 hsp hlook hprv

/-- C4 (amended): when the chain mapper binds a register `reg` whose name does
not contain "sp", and `conditions` names `reg` with target `target`, and the
SMT capability reports the equality unsatisfiable, `verify_path` returns
`none`. (Conditions on stack-pointer-named registers, or on registers the
mapper does not bind, are never checked.) -/
theorem verify_path_unsat_checked_null
    (symExecChain : List Nat → List (String × SymExpr))
    (prv : Int → SymExpr → Option (List (Int × Int)))
    (path : List Gadget) (conditions : List (String × Int))
    (reg : String) (e : SymExpr) (target : Int)
    (hm : (reg, e) ∈ symExecChain ((path.map Gadget.bytes).flatten))
    (hsp : strContainsB "sp" reg = false)
    (hc : List.lookup reg conditions = some target)
    (hunsat : prv target e = none) :
    verify_path symExecChain prv path conditions = none := by
  simp only [verify_path]
  rw [verifyLoop_unsat_none prv conditions _ 0 [] reg e target hm hsp hc hunsat]

/-- Witness for `verify_path_unsat_checked_null`: a single condition on `eax`
that the SMT capability reports unsatisfiable makes `verify_path` return
`none`. -/
theorem verify_path_unsat_checked_null_witness :
    verify_path chainSymExec unsatProve cexPath [("eax", 5)] = none :=
  verify_path_unsat_checked_null chainSymExec unsatProve cexPath [("eax", 5)]
    "eax" (SymExpr.mem ["esp"] 0 32) 5 (by decide) (by decide) (by decide) (by decide)

/-- C4 counterexample: `cexConditions` contains the pair `("esp", 999)`, the
chain mapper binds `esp`, and the equality for that pair is unsatisfiable
(`cexProve 999 _ = none`), yet `verify_path` does not return `Null`: the loop
skips every register whose name contains "sp" before consulting the
conditions. -/
theorem verify_path_sp_condition_unchecked_cex :
    ("esp", 999) ∈ cexConditions ∧
      ("esp", SymExpr.op ["esp"] 4) ∈ chainSymExec ((cexPath.map Gadget.bytes).flatten) ∧
      cexProve 999 (SymExpr.op ["esp"] 4) = none ∧
      verify_path chainSymExec cexProve cexPath cexConditions = some (4, [(0, 5)]) :=
  ⟨by decide, by decide, by decide, by decide⟩

theorem cache_rebase_maps (la : Int) :
    ∀ (data : List (Int × List Nat)) (b1 b2 : Int),
      ((data.map (fun kv => (kv.1 + la - b1, kv.2))).map
          (fun kv => (kv.1 - la + b2, kv.2))) =
        data.map (fun kv => (kv.1 + (b2 - b1), kv.2)) := by
  intro data
  induction data with
  | nil => intro b1 b2; rfl
  | cons kv rest ih =>
    intro b1 b2
    simp only [List.map_cons, List.map_map] at *
    rw [show kv.1 + la - b1 - la + b2 = kv.1 + (b2 - b1) from by omega]
    rw [ih b1 b2]

theorem map_add_zero_offset :
    ∀ (data : List (Int × List Nat)), data.map (fun kv => (kv.1 + (0 : Int), kv.2)) = data := by
  intro data
  induction data with
  | nil => rfl
  | cons kv rest ih => simp [ih]

/-- C9: cache address re-basing round-trips. Saving under runtime base `B1`
(image `elf1`) and loading under base `B2` (same static load address) shifts
every address by exactly `B2 - B1`; with an unchanged base the catalog
addresses are unchanged. -/
theorem cache_rebase_round_trip (elf1 elf2 : Elf) (data : List (Int × List Nat))
    (hla : elf1.load_addr = elf2.load_addr) :
    cache_load (some (.ok (cache_save_data elf1 data))) elf2 =
      .ok (some (data.map (fun kv => (kv.1 + (elf2.address - elf1.address), kv.2)))) ∧
      (elf2.address = elf1.address →
        cache_load (some (.ok (cache_save_data elf1 data))) elf2 = .ok (some data)) := by
  have hmain : cache_load (some (.ok (cache_save_data elf1 data))) elf2 =
      .ok (some (data.map (fun kv => (kv.1 + (elf2.address - elf1.address), kv.2)))) := by
    unfold cache_load cache_save_data
    dsimp only
    rw [hla, cache_rebase_maps elf2.load_addr data elf1.address elf2.address]
  refine ⟨hmain, fun haddr => ?_⟩
  rw [hmain, haddr]
  rw [show elf1.address - elf1.address = (0 : Int) by omega]
  rw [map_add_zero_offset]

/-- Witness for `cache_rebase_round_trip`: an image saved at runtime base
0x1000 and loaded at base 0x7000 has its cached address 0x500 shifted to
0x6500. -/
theorem cache_rebase_round_trip_witness :
    cache_load (some (.ok (cache_save_data elfBaseA [(0x500, [1, 2])]))) elfBaseB =
      .ok (some [(0x6500, [1, 2])]) := by
  have h := (cache_rebase_round_trip elfBaseA elfBaseB [(0x500, [1, 2])] rfl).1
  exact h.trans (by decide)

/-- C2 (amended): only a missing cache file is treated as a miss (the segment
is scanned); a cache file that fails to deserialize raises inside
`__cache_load` and the error propagates out of `__find_all_gadgets` — the
image is not re-scanned and nothing is overwritten. -/
theorem corrupt_cache_error_behaviour :
    ∀ (disasm : Int → List Nat → List DecodedInsn) (gadget_re : List GadPattern)
      (elf : Elf) (depth : Nat) (nf : Bool) (sec : Segment),
      find_all_gadgets disasm gadget_re elf (some .corrupt) depth nf sec = .error () ∧
        find_all_gadgets disasm gadget_re elf none depth nf sec =
          .ok (scanGadgets disasm gadget_re sec elf depth nf) := by
  intro disasm gadget_re elf depth nf sec
  exact ⟨rfl, rfl⟩

/-- C2 counterexample: with a cache file that fails to deserialize,
`load_gadgets` propagates the error to the caller instead of re-scanning. -/
theorem corrupt_cache_propagates_cex :
    load_gadgets cexDisasm [] corruptCacheOf 10 false [cexElf] = .error () := by
  decide

theorem mem_filter_big {g g0 : Gadget} (h : g ∈ filter_for_big_binary g0) :
    g = g0 ∧ g0.insns.all validInsn = true := by
  unfold filter_for_big_binary at h
  split at h
  · next hall => exact ⟨List.mem_singleton.mp h, hall⟩
  · simp at h

theorem mem_tryWindow {disasm : Int → List Nat → List DecodedInsn} {gad : GadPattern}
    {sec : Segment} {elf : Elf} {nf : Bool} {ref i : Nat} {g : Gadget}
    (h : g ∈ tryWindow disasm gad sec elf nf ref i) :
    g.move = 0 ∧ g.regs = [] ∧ (nf = true → g.insns.all validInsn = true) := by
  simp only [tryWindow] at h
  repeat' split at h
  all_goals
    first
      | exact absurd h (List.not_mem_nil g)
      | exact h.elim
      | (rcases mem_filter_big h with ⟨hg, hv⟩
         subst hg
         exact ⟨rfl, rfl, fun _ => hv⟩)
      | (rcases List.mem_singleton.mp h with rfl
         exact ⟨rfl, rfl, fun hc => absurd hc (by assumption)⟩)

theorem mem_scanGadgets {disasm : Int → List Nat → List DecodedInsn}
    {gadget_re : List GadPattern} {sec : Segment} {elf : Elf} {depth : Nat}
    {nf : Bool} {g : Gadget}
    (h : g ∈ scanGadgets disasm gadget_re sec elf depth nf) :
    g.move = 0 ∧ g.regs = [] ∧ (nf = true → g.insns.all validInsn = true) := by
  unfold scanGadgets at h
  rcases List.mem_flatMap.mp h with ⟨gad, _, h2⟩
  unfold scanPattern at h2
  rcases List.mem_flatMap.mp h2 with ⟨ref, _, h3⟩
  unfold scanRef at h3
  rcases List.mem_flatMap.mp h3 with ⟨i, _, h4⟩
  exact mem_tryWindow h4

theorem mem_cachedGadgets {disasm : Int → List Nat → List DecodedInsn}
    {cache : List (Int × List Nat)} {g : Gadget}
    (h : g ∈ cachedGadgets disasm cache) : g.move = 0 ∧ g.regs = [] := by
  unfold cachedGadgets at h
  rcases List.mem_filterMap.mp h with ⟨kv, _, hf⟩
  dsimp only at hf
  split at hf
  · injection hf with hf
    rw [← hf]
    exact ⟨rfl, rfl⟩
  · exact absurd hf (by simp)

theorem mem_find_all_gadgets {disasm : Int → List Nat → List DecodedInsn}
    {gadget_re : List GadPattern} {elf : Elf} {cacheFile : Option CacheContent}
    {depth : Nat} {nf : Bool} {sec : Segment} {gs : List Gadget} {g : Gadget}
    (h : find_all_gadgets disasm gadget_re elf cacheFile depth nf sec = .ok gs)
    (hg : g ∈ gs) : g.move = 0 ∧ g.regs = [] := by
  unfold find_all_gadgets at h
  cases hc : cache_load cacheFile elf with
  | error e =>
    rw [hc] at h
    exact absurd h (by simp)
  | ok copt =>
    rw [hc] at h
    cases copt with
    | none =>
      dsimp only at h
      injection h with h
      rw [← h] at hg
      exact ⟨(mem_scanGadgets hg).1, (mem_scanGadgets hg).2.1⟩
    | some cache =>
      dsimp only at h
      split at h
      · injection h with h
        rw [← h] at hg
        exact ⟨(mem_scanGadgets hg).1, (mem_scanGadgets hg).2.1⟩
      · injection h with h
        rw [← h] at hg
        exact mem_cachedGadgets hg

theorem mem_seg_gadgets {disasm : Int → List Nat → List DecodedInsn}
    {gadget_re : List GadPattern} {elf : Elf} {cacheFile : Option CacheContent}
    {depth : Nat} {nf : Bool} :
    ∀ (segs : List Segment) (gs : List Gadget),
      seg_gadgets disasm gadget_re elf cacheFile depth nf segs = .ok gs →
      ∀ g ∈ gs, g.move = 0 ∧ g.regs = [] := by
  intro segs
  induction segs with
  | nil =>
    intro gs h g hg
    unfold seg_gadgets at h
    injection h with h
    rw [← h] at hg
    simp at hg
  | cons sec rest ih =>
    intro gs h g hg
    unfold seg_gadgets at h
    cases h1 : find_all_gadgets disasm gadget_re elf cacheFile depth nf sec with
    | error e =>
      rw [h1] at h
      exact absurd h (by simp)
    | ok gs1 =>
      rw [h1] at h
      dsimp only at h
      cases h2 : seg_gadgets disasm gadget_re elf cacheFile depth nf rest with
      | error e =>
        rw [h2] at h
        exact absurd h (by simp)
      | ok more =>
        rw [h2] at h
        dsimp only at h
        injection h with h
        rw [← h] at hg
        rcases List.mem_append.mp hg with hg1 | hg1
        · exact mem_find_all_gadgets h1 hg1
        · exact ih more h2 g hg1

theorem dedupGo_cons_seen {g : Gadget} {rest : List Gadget} {seen : List String}
    (hs : joinInsns g.insns ∈ seen) :
    dedupGo (g :: rest) seen = dedupGo rest seen := by
  simp only [dedupGo]
  rw [if_pos hs]

theorem dedupGo_cons_not_seen {g : Gadget} {rest : List Gadget} {seen : List String}
    (hs : joinInsns g.insns ∉ seen) :
    dedupGo (g :: rest) seen = g :: dedupGo rest (seen ++ [joinInsns g.insns]) := by
  simp only [dedupGo]
  rw [if_neg hs]

theorem dedupGo_subset :
    ∀ (l : List Gadget) (seen : List String) (g : Gadget), g ∈ dedupGo l seen → g ∈ l := by
  intro l
  induction l with
  | nil => intro seen g h; simp [dedupGo] at h
  | cons g0 rest ih =>
    intro seen g h
    by_cases hs : joinInsns g0.insns ∈ seen
    · rw [dedupGo_cons_seen hs] at h
      exact List.mem_cons_of_mem g0 (ih _ _ h)
    · rw [dedupGo_cons_not_seen hs] at h
      rcases List.mem_cons.mp h with rfl | h2
      · exact List.mem_cons_self g rest
      · exact List.mem_cons_of_mem g0 (ih _ _ h2)

theorem dedupGo_join_nodup :
    ∀ (l : List Gadget) (seen : List String),
      ((dedupGo l seen).map (fun g => joinInsns g.insns)).Nodup ∧
        ∀ s ∈ (dedupGo l seen).map (fun g => joinInsns g.insns), s ∉ seen := by
  intro l
  induction l with
  | nil => intro seen; simp [dedupGo]
  | cons g rest ih =>
    intro seen
    by_cases hs : joinInsns g.insns ∈ seen
    · rw [dedupGo_cons_seen hs]
      exact ih seen
    · rw [dedupGo_cons_not_seen hs]
      have h2 := ih (seen ++ [joinInsns g.insns])
      constructor
      · rw [List.map_cons]
        refine List.nodup_cons.mpr ⟨?_, h2.1⟩
        intro hcon
        exact (h2.2 _ hcon) (List.mem_append.mpr (Or.inr (List.mem_singleton.mpr rfl)))
      · intro s hsmem
        rw [List.map_cons] at hsmem
        rcases List.mem_cons.mp hsmem with rfl | hsmem2
        · exact hs
        · intro hcon
          exact h2.2 s hsmem2 (List.mem_append.mpr (Or.inl hcon))

theorem dedupGo_first_seen :
    ∀ (l1 : List Gadget) (g : Gadget) (l2 : List Gadget) (seen : List String),
      joinInsns g.insns ∉ seen →
      joinInsns g.insns ∉ l1.map (fun x => joinInsns x.insns) →
      g ∈ dedupGo (l1 ++ g :: l2) seen := by
  intro l1
  induction l1 with
  | nil =>
    intro g l2 seen hseen _
    rw [List.nil_append, dedupGo_cons_not_seen hseen]
    exact List.mem_cons_self g _
  | cons h0 rest ih =>
    intro g l2 seen hseen hfirst
    rw [List.cons_append]
    have hne : joinInsns g.insns ≠ joinInsns h0.insns := by
      intro hc
      exact hfirst (by rw [List.map_cons]; exact List.mem_cons.mpr (Or.inl hc))
    have hfirst2 : joinInsns g.insns ∉ rest.map (fun x => joinInsns x.insns) := by
      intro hc
      exact hfirst (by rw [List.map_cons]; exact List.mem_cons.mpr (Or.inr hc))
    by_cases hs : joinInsns h0.insns ∈ seen
    · rw [dedupGo_cons_seen hs]
      exact ih g l2 seen hseen hfirst2
    · rw [dedupGo_cons_not_seen hs]
      refine List.mem_cons_of_mem h0 (ih g l2 (seen ++ [joinInsns h0.insns]) ?_ hfirst2)
      intro hc
      rcases List.mem_append.mp hc with hc1 | hc1
      · exact hseen hc1
      · exact hne (List.mem_singleton.mp hc1)

theorem mem_load_gadgets_go {disasm : Int → List Nat → List DecodedInsn}
    {gadget_re : List GadPattern} {cacheOf : Elf → Option CacheContent}
    {depth : Nat} {nf : Bool} :
    ∀ (elfs : List Elf) (gs : List Gadget),
      load_gadgets_go disasm gadget_re cacheOf depth nf elfs = .ok gs →
      ∀ g ∈ gs, g.move = 0 ∧ g.regs = [] := by
  intro elfs
  induction elfs with
  | nil =>
    intro gs h g hg
    unfold load_gadgets_go at h
    injection h with h
    rw [← h] at hg
    simp at hg
  | cons elf rest ih =>
    intro gs h g hg
    unfold load_gadgets_go at h
    cases h1 : seg_gadgets disasm gadget_re elf (cacheOf elf) depth nf elf.segments with
    | error e =>
      rw [h1] at h
      exact absurd h (by simp)
    | ok gs1 =>
      rw [h1] at h
      dsimp only at h
      cases h2 : load_gadgets_go disasm gadget_re cacheOf depth nf rest with
      | error e =>
        rw [h2] at h
        exact absurd h (by simp)
      | ok more =>
        rw [h2] at h
        dsimp only at h
        injection h with h
        rw [← h] at hg
        rcases List.mem_append.mp hg with hg1 | hg1
        · exact mem_seg_gadgets elf.segments gs1 h1 g (dedupGo_subset gs1 [] g hg1)
        · exact ih more h2 g hg1

/-- C5 counterexample: with a list of two images (here the same image twice,
each with a cached `ret` gadget), the catalog returned by `load_gadgets`
contains two gadgets whose joined mnemonic strings are identical — the
deduplication runs per image, not across images. -/
theorem load_gadgets_cross_image_duplicate_cex :
    load_gadgets cexDisasm [] retCacheOf 1 false [cexElf, cexElf] =
      .ok [retCacheGadget, retCacheGadget] ∧
      ¬ (([retCacheGadget, retCacheGadget].map (fun g => joinInsns g.insns)).Nodup) :=
  ⟨by decide, by decide⟩

/-- C5 (amended): deduplication is applied per image, not across the whole
catalog. For a single-image input, the returned catalog contains no two
gadgets with identical joined mnemonic strings, and among duplicates the
first-seen gadget of the image's scan is the one kept; with a list of several
images, duplicates across images survive. -/
theorem load_gadgets_single_image_nodup (disasm : Int → List Nat → List DecodedInsn)
    (gadget_re : List GadPattern) (cacheOf : Elf → Option CacheContent)
    (depth : Nat) (nf : Bool) (elf : Elf) (gs : List Gadget)
    (h : load_gadgets disasm gadget_re cacheOf depth nf [elf] = .ok gs) :
    (gs.map (fun g => joinInsns g.insns)).Nodup ∧
      ∀ (l1 : List Gadget) (g : Gadget) (l2 : List Gadget),
        seg_gadgets disasm gadget_re elf (cacheOf elf) depth nf elf.segments =
          .ok (l1 ++ g :: l2) →
        joinInsns g.insns ∉ l1.map (fun x => joinInsns x.insns) →
        g ∈ gs := by
  unfold load_gadgets load_gadgets_go at h
  cases hseg : seg_gadgets disasm gadget_re elf (cacheOf elf) depth nf elf.segments with
  | error e =>
    rw [hseg] at h
    exact absurd h (by simp)
  | ok gs0 =>
    rw [hseg] at h
    dsimp only at h
    injection h with h
    constructor
    · rw [← h, List.append_nil]
      exact (dedupGo_join_nodup gs0 []).1
    · intro l1 g l2 hseg2 hfirst
      injection hseg2 with hseg2
      rw [← h, List.append_nil, hseg2]
      exact dedupGo_first_seen l1 g l2 [] (List.not_mem_nil _) hfirst

/-- Witness for `load_gadgets_single_image_nodup`: one image with one cached
`ret` gadget gives a duplicate-free catalog. -/
theorem load_gadgets_single_image_nodup_witness :
    (([retCacheGadget].map (fun g => joinInsns g.insns)).Nodup) := by
  have h := load_gadgets_single_image_nodup cexDisasm [] retCacheOf 1 false cexElf
    [retCacheGadget] (by decide)
  exact h.1

/-- C7 counterexample: `classify` on the `sub esp, 0xc; ret` mapper accepts the
gadget (`ip_delta = -12 = -8 - 4`) and returns `sp_delta = -8`, which is
negative — classified `sp_delta` is not always non-negative. -/
theorem classify_negative_sp_delta_cex :
    classify 4 subEspSymExec subEspGadget = some subEspClassified ∧
      subEspClassified.move < 0 :=
  ⟨by decide, by decide⟩

/-- C7 (amended): every gadget returned by `load_gadgets` has `sp_delta = 0`
(the scanner always creates gadgets with `move = 0` and empty `regs`), hence
non-negative and a multiple of any pointer width; `classify` however enforces
only `ip_delta = sp_delta - align`, so classified `sp_delta` can be negative. -/
theorem load_gadgets_sp_delta_zero (disasm : Int → List Nat → List DecodedInsn)
    (gadget_re : List GadPattern) (cacheOf : Elf → Option CacheContent)
    (depth : Nat) (nf : Bool) (elfs : List Elf) (gs : List Gadget)
    (h : load_gadgets disasm gadget_re cacheOf depth nf elfs = .ok gs) :
    ∀ g ∈ gs, g.move = 0 ∧ (0 : Int) ≤ g.move ∧ ∀ w : Int, w ∣ g.move := by
  intro g hg
  have hz := mem_load_gadgets_go elfs gs h g hg
  refine ⟨hz.1, ?_, ?_⟩
  · rw [hz.1]
  · intro w
    rw [hz.1]
    exact dvd_zero w

/-- Witness for `load_gadgets_sp_delta_zero`: the cached `ret` gadget has
`sp_delta = 0`, non-negative and a multiple of the i386 pointer width 4. -/
theorem load_gadgets_sp_delta_zero_witness :
    retCacheGadget.move = 0 ∧ (0 : Int) ≤ retCacheGadget.move ∧
      (4 : Int) ∣ retCacheGadget.move := by
  have h := load_gadgets_sp_delta_zero cexDisasm [] retCacheOf 1 false [cexElf]
    [retCacheGadget] (by decide) retCacheGadget (by decide)
  exact ⟨h.1, h.2.1, h.2.2 4⟩

/-- C8 counterexample: for an x86 image of exactly 100000 bytes the allow-list
is applied (`need_filter` is true) although 100000 < 100 * 1024 — the
threshold in the code is `MAX_SIZE * 1000` bytes, not 100 KiB. -/
theorem big_binary_threshold_cex :
    need_filter CS_ARCH_X86 (100 * 1000) = true ∧ ¬ (100 * 1024 ≤ 100 * 1000) :=
  ⟨by decide, by decide⟩

/-- C8 (amended): the allow-list restriction is active exactly when the image
is x86/x64 and its byte length is at least `MAX_SIZE * 1000 = 100000` bytes
(not 100 KiB); a gadget survives `__filter_for_big_binary_or_elf32` iff every
instruction matches one of the allow-list regular expressions, and every
gadget the scan emits under the restriction satisfies the allow-list. -/
theorem big_binary_allow_list :
    (∀ (a n : Nat), need_filter a n = true ↔ (a = CS_ARCH_X86 ∧ MAX_SIZE * 1000 ≤ n)) ∧
      (∀ g : Gadget, g.insns.all validInsn = true → filter_for_big_binary g = [g]) ∧
      (∀ (disasm : Int → List Nat → List DecodedInsn) (gadget_re : List GadPattern)
         (sec : Segment) (elf : Elf) (depth : Nat) (g : Gadget),
         g ∈ scanGadgets disasm gadget_re sec elf depth true →
         g.insns.all validInsn = true) := by
  refine ⟨?_, ?_, ?_⟩
  · intro a n
    unfold need_filter
    simp [Bool.and_eq_true, decide_eq_true_eq, beq_iff_eq]
  · intro g hg
    unfold filter_for_big_binary
    rw [if_pos hg]
  · intro disasm gadget_re sec elf depth g h
    exact (mem_scanGadgets h).2.2 rfl

/-- Witness for `big_binary_allow_list`: the scan of a one-byte `ret` segment
under the restriction emits a gadget whose only instruction, `ret`, matches
the allow-list. -/
theorem big_binary_allow_list_witness :
    retScanGadget.insns.all validInsn = true ∧
      scanGadgets cexDisasm [retPattern] cexSeg cexElf 1 true = [retScanGadget] :=
  ⟨big_binary_allow_list.2.2 cexDisasm [retPattern] cexSeg cexElf 1 retScanGadget
      (by decide),
    by decide⟩

/-- C10: when the cache file deserializes to a nonempty mapping, the gadgets
are recovered directly from it: every rebased `(address, bytes)` entry that
disassembles to at least one instruction is emitted (`cachedGadgets`), for any
`need_filter` setting, any pattern table, any depth and any segment — neither
`__passClean` nor the big-binary allow-list runs on the cache-load path. -/
theorem cache_path_skips_filters (disasm : Int → List Nat → List DecodedInsn)
    (gadget_re : List GadPattern) (elf : Elf) (depth : Nat) (nf : Bool)
    (sec : Segment) (cache : List (Int × List Nat)) (hne : cache ≠ []) :
    find_all_gadgets disasm gadget_re elf (some (.ok cache)) depth nf sec =
      .ok (cachedGadgets disasm
        (cache.map (fun kv => (kv.1 - elf.load_addr + elf.address, kv.2)))) ∧
      find_all_gadgets disasm gadget_re elf (some (.ok cache)) depth true sec =
        find_all_gadgets disasm gadget_re elf (some (.ok cache)) depth false sec := by
  have hmapne :
      (cache.map (fun kv => (kv.1 - elf.load_addr + elf.address, kv.2))).isEmpty = false := by
    cases cache with
    | nil => exact absurd rfl hne
    | cons kv rest => rfl
  constructor
  · unfold find_all_gadgets cache_load
    dsimp only
    rw [hmapne]
    rfl
  · unfold find_all_gadgets cache_load
    dsimp only
    rw [hmapne]
    simp

/-- Witness for `cache_path_skips_filters`: a cached `nop` entry is emitted
even though `nop` fails `__passClean` (no branch) and fails the allow-list,
with the big-binary restriction active. -/
theorem cache_path_skips_filters_witness :
    find_all_gadgets cexDisasm [] cexElf (some (.ok nopCache)) 10 true cexSeg =
      .ok [nopCacheGadget] ∧
      passClean [nopInsn] = false ∧ validInsn "nop" = false := by
  have h := (cache_path_skips_filters cexDisasm [] cexElf 10 true cexSeg nopCache
    (by decide)).1
  exact ⟨h.trans (by decide), by decide, by decide⟩

end GadgetFinderSpec

